import Mathlib

/- Formal model of the media-posting backend in src/server.js.
   JavaScript strings are modelled by String, millisecond timestamps by Int,
   the posts.json document by a list of records, and the uploads directory by
   a list of stored file paths. -/

/-- A post record as built in the POST handler (src/server.js lines 114-123). -/
structure Post where
  id : Int
  type : String
  url : String
  title : String
  description : String
  date : String
  tags : List String
  externalLink : Option String
deriving DecidableEq

/-- The req.file object produced by multer disk storage for an accepted upload. -/
structure StoredFile where
  filename : String
  mimetype : String
  path : String
deriving DecidableEq

/-- Server-side persistent state: the posts.json document and the stored upload files. -/
structure ServerState where
  posts : List Post
  files : List String
deriving DecidableEq

/-- Truthiness of an optional JavaScript string: undefined and the empty string are falsy. -/
def jsTruthyS : Option String → Bool
  | some s => s != ""
  | none => false

/-- Suffix of a character list starting at its last dot, if any. -/
def extTail : List Char → Option (List Char)
  | [] => none
  | c :: rest =>
    match extTail rest with
    | some t => some t
    | none => if c == '.' then some (c :: rest) else none

/-- Model of path.extname on a plain file name: the substring from the last dot
to the end, empty when there is no dot or the only dot is the leading character. -/
def extname (s : String) : String :=
  match s.data with
  | [] => ""
  | _ :: rest =>
    match extTail rest with
    | some t => String.mk t
    | none => ""

/-- Lower-case one character, as String.prototype.toLowerCase acts on the
ASCII letters that can occur in file extensions and mime strings. -/
def lowerCh (c : Char) : Char :=
  if 'A' ≤ c && c ≤ 'Z' then Char.ofNat (c.toNat + 32) else c

/-- Lower-case a string character by character. -/
def lowerStr (s : String) : String := String.mk (s.data.map lowerCh)

/-- Test that pat occurs at the head of s. -/
def hasPre : List Char → List Char → Bool
  | [], _ => true
  | _ :: _, [] => false
  | a :: as, b :: bs => a == b && hasPre as bs

/-- Test that pat occurs somewhere inside s, which is what an unanchored regex
literal with no anchors tests. -/
def hasSub (pat : List Char) : List Char → Bool
  | [] => pat.isEmpty
  | c :: rest => hasPre pat (c :: rest) || hasSub pat rest

/-- The alternatives of the allow-list regex in src/server.js line 43. -/
def allowedTypes : List String :=
  ["jpeg", "jpg", "png", "gif", "webp", "mp4", "mov", "avi", "webm"]

/-- allowedTypes.test(s): the unanchored regex matches iff some alternative
occurs in s as a substring. -/
def regexTest (s : String) : Bool :=
  allowedTypes.any (fun t => hasSub t.data s.data)

/-- multer fileFilter (src/server.js lines 42-52): accept iff the regex matches
both the lower-cased extension of the original name and the declared mimetype
(the mimetype is not lower-cased in the code). -/
def fileFilter (originalname mimetype : String) : Bool :=
  regexTest mimetype && regexTest (lowerStr (extname originalname))

/-- Multer storage step: a file is written into the uploads directory exactly
when fileFilter accepts the request; a rejected request writes nothing. -/
def processUpload (dir : List String) (originalname mimetype storedName : String) :
    Option String × List String :=
  if fileFilter originalname mimetype then (some storedName, storedName :: dir)
  else (none, dir)

/-- Strip one leading dot from an extension string. -/
def stripDot (e : String) : String :=
  match e.data with
  | '.' :: r => String.mk r
  | _ => e

/-- The subtype part of a mime string, after the first slash. -/
def mimeSub (m : String) : String :=
  String.mk ((m.data.dropWhile (fun c => c != '/')).drop 1)

/-- Claim C1's reading of the validation, written from the claim's words for
comparison with fileFilter: the lower-cased extension (dot removed) and the
mime subtype must each be an element of the allow-list. -/
def specAllowListCheck (originalname mimetype : String) : Bool :=
  allowedTypes.contains (lowerStr (stripDot (extname originalname))) &&
  allowedTypes.contains (mimeSub mimetype)

/-- Numeric value of a decimal digit list, most significant first. -/
def decVal : List Char → Nat → Nat
  | [], acc => acc
  | c :: rest, acc => decVal rest (acc * 10 + (c.toNat - '0'.toNat))

/-- Hexadecimal digit test. -/
def isHexDigitCh (c : Char) : Bool :=
  c.isDigit || ('a' ≤ c && c ≤ 'f') || ('A' ≤ c && c ≤ 'F')

/-- Value of one hexadecimal digit. -/
def hexDigitVal (c : Char) : Nat :=
  if c.isDigit then c.toNat - '0'.toNat
  else if 'a' ≤ c && c ≤ 'f' then c.toNat - 'a'.toNat + 10
  else c.toNat - 'A'.toNat + 10

/-- Numeric value of a hexadecimal digit list, most significant first. -/
def hexVal : List Char → Nat → Nat
  | [], acc => acc
  | c :: rest, acc => hexVal rest (acc * 16 + hexDigitVal c)

/-- Optional sign at the head of the character list. -/
def parseSign : List Char → Int × List Char
  | '-' :: r => (-1, r)
  | '+' :: r => (1, r)
  | cs => (1, cs)

/-- Model of JavaScript parseInt(s) with no radix argument: skip leading
whitespace, read an optional sign, then the longest run of decimal digits, or
of hexadecimal digits after a 0x or 0X prefix; none models NaN. -/
def jsParseInt (s : String) : Option Int :=
  let cs := s.data.dropWhile Char.isWhitespace
  let sc := parseSign cs
  match sc.2 with
  | '0' :: 'x' :: r =>
    let ds := r.takeWhile isHexDigitCh
    if ds.isEmpty then none else some (sc.1 * (hexVal ds 0 : Int))
  | '0' :: 'X' :: r =>
    let ds := r.takeWhile isHexDigitCh
    if ds.isEmpty then none else some (sc.1 * (hexVal ds 0 : Int))
  | cs2 =>
    let ds := cs2.takeWhile Char.isDigit
    if ds.isEmpty then none else some (sc.1 * (decVal ds 0 : Int))

/-- p.id === parseInt(req.params.id): strict equality against NaN never holds,
so a failed parse matches no record. -/
def eqNum : Option Int → Int → Bool
  | some n, x => n == x
  | none, _ => false

/-- Model of String.prototype.trim: drop whitespace from both ends. -/
def trimStr (s : String) : String :=
  String.mk (((s.data.dropWhile Char.isWhitespace).reverse.dropWhile Char.isWhitespace).reverse)

/-- externalLink && externalLink.trim() ? externalLink.trim() : null, applied
to an optional wire value (none covers undefined and null, which are falsy). -/
def normalizeLink : Option String → Option String
  | none => none
  | some s => if trimStr s == "" then none else some (trimStr s)

/-- Body of POST /api/posts as multer leaves it: each field is a string or
undefined; tags holds the decoded JSON array of a truthy tags field, none when
the tags field is absent or empty. -/
structure CreateBody where
  title : Option String
  description : Option String
  date : Option String
  tags : Option (List String)
  externalLink : Option String
deriving DecidableEq

/-- The newPost record literal of src/server.js lines 114-123. -/
def builtPost (f : StoredFile) (body : CreateBody) (now : Int) (today : String) : Post :=
  { id := now
    type := if f.mimetype.startsWith "image/" then "image" else "video"
    url := "/uploads/" ++ f.filename
    title := body.title.getD ""
    description := body.description.getD ""
    date := match body.date with
      | some d => if d != "" then d else today
      | none => today
    tags := body.tags.getD []
    externalLink := normalizeLink body.externalLink }

/-- POST /api/posts handler (src/server.js lines 94-136): reject with 400 when
no file part arrived; reject with 400 and unlink the stored file when title or
description is falsy; otherwise build the record and prepend it to the document.
Returns status, response record, and the new server state. -/
def createHandler (st : ServerState) (file : Option StoredFile) (body : CreateBody)
    (now : Int) (today : String) : Nat × Option Post × ServerState :=
  match file with
  | none => (400, none, st)
  | some f =>
    if !(jsTruthyS body.title) || !(jsTruthyS body.description) then
      (400, none, { st with files := st.files.erase f.path })
    else
      let newPost := builtPost f body now today
      (201, some newPost, { st with posts := newPost :: st.posts })

/-- GET /api/posts handler: returns the whole document in stored order. -/
def listHandler (st : ServerState) : Nat × List Post × ServerState :=
  (200, st.posts, st)

/-- GET /api/posts/:id handler (src/server.js lines 78-91): linear find on the
parsed id, 404 when absent; never writes the document. -/
def getPostHandler (st : ServerState) (idParam : String) : Nat × Option Post × ServerState :=
  match st.posts.find? (fun p => eqNum (jsParseInt idParam) p.id) with
  | none => (404, none, st)
  | some p => (200, some p, st)

/-- findIndex followed by splice: remove the first record matching pred, also
returning it. -/
def removeFirst (pred : Post → Bool) : List Post → Option (Post × List Post)
  | [] => none
  | p :: rest =>
    if pred p then some (p, rest)
    else match removeFirst pred rest with
      | none => none
      | some (q, r) => some (q, p :: r)

/-- Model of path.join(__dirname, url): prefix the url with the server directory. -/
def joinDirname (u : String) : String := "__dirname" ++ u

/-- DELETE /api/posts/:id handler (src/server.js lines 139-166): 404 when the
parsed id matches no record; otherwise unlink the backing file only when it
exists (a missing file is skipped), then splice the record out and persist.
When unlinkSync throws on an existing file the catch block answers 500 and
nothing is removed or persisted; unlinkFails models which paths make
unlinkSync throw. -/
def deleteHandler (st : ServerState) (idParam : String) (unlinkFails : String → Bool) :
    Nat × ServerState :=
  match removeFirst (fun p => eqNum (jsParseInt idParam) p.id) st.posts with
  | none => (404, st)
  | some (post, rest) =>
    let fpath := joinDirname post.url
    if st.files.contains fpath then
      if unlinkFails fpath then (500, st)
      else (200, { posts := rest, files := st.files.erase fpath })
    else (200, { st with posts := rest })

/-- Body of PUT /api/posts/:id: JSON fields. For title, description and date,
none is undefined and some "" is a supplied falsy value. For tags, none is
undefined, some none a supplied falsy value, some (some l) a supplied array.
For externalLink, none is undefined, some none a supplied null, some (some s)
a supplied string. -/
structure UpdateBody where
  title : Option String
  description : Option String
  date : Option String
  tags : Option (Option (List String))
  externalLink : Option (Option String)
deriving DecidableEq

/-- Field mutation of the PUT handler (src/server.js lines 181-185): truthy
title, description, date and tags replace; externalLink is applied whenever it
is not undefined, normalizing blank to null; id, type and url are untouched. -/
def applyUpdate (body : UpdateBody) (p : Post) : Post :=
  { p with
    title := match body.title with
      | some s => if s != "" then s else p.title
      | none => p.title
    description := match body.description with
      | some s => if s != "" then s else p.description
      | none => p.description
    date := match body.date with
      | some s => if s != "" then s else p.date
      | none => p.date
    tags := match body.tags with
      | some (some l) => l
      | _ => p.tags
    externalLink := match body.externalLink with
      | some v => normalizeLink v
      | none => p.externalLink }

/-- findIndex followed by in-place mutation: rewrite the first record matching
pred with f, also returning the rewritten record. -/
def updateFirst (pred : Post → Bool) (f : Post → Post) : List Post → Option (Post × List Post)
  | [] => none
  | p :: rest =>
    if pred p then some (f p, f p :: rest)
    else match updateFirst pred f rest with
      | none => none
      | some (q, r) => some (q, p :: r)

/-- PUT /api/posts/:id handler (src/server.js lines 169-193): 404 when the
parsed id matches no record; otherwise mutate the found record in place,
persist, and return it. -/
def updateHandler (st : ServerState) (idParam : String) (body : UpdateBody) :
    Nat × Option Post × ServerState :=
  match updateFirst (fun p => eqNum (jsParseInt idParam) p.id) (applyUpdate body) st.posts with
  | none => (404, none, st)
  | some (q, posts') => (200, some q, { st with posts := posts' })

/-- One client operation against the mutating routes. -/
inductive Op where
  | create (file : Option StoredFile) (body : CreateBody) (now : Int) (today : String)
  | update (idParam : String) (body : UpdateBody)
  | del (idParam : String) (unlinkFails : String → Bool)

/-- State transition of one operation. -/
def applyOp (st : ServerState) : Op → ServerState
  | .create f b now today => (createHandler st f b now today).2.2
  | .update idp b => (updateHandler st idp b).2.2
  | .del idp uf => (deleteHandler st idp uf).2

/-- Run a sequence of operations left to right. -/
def runOps (st : ServerState) : List Op → ServerState
  | [] => st
  | op :: ops => runOps (applyOp st op) ops

/-- The creation timestamps of a sequence of operations, in order. -/
def createTimes : List Op → List Int
  | [] => []
  | .create _ _ now _ :: ops => now :: createTimes ops
  | .update _ _ :: ops => createTimes ops
  | .del _ _ :: ops => createTimes ops

/-- The empty initial state: posts.json is initialized to an empty array. -/
def emptyState : ServerState := { posts := [], files := [] }

/-- A sample accepted upload. -/
def okFile : StoredFile :=
  { filename := "f.jpg", mimetype := "image/jpeg", path := "uploads/f.jpg" }

/-- A sample valid create body. -/
def okBody : CreateBody :=
  { title := some "Trip", description := some "Summer", date := none,
    tags := none, externalLink := none }

/-- A create body whose title is the supplied empty string. -/
def noTitleBody : CreateBody := { okBody with title := some "" }

/-- A sample stored post with id 1 and a non-null external link. -/
def samplePost : Post :=
  { id := 1, type := "image", url := "/uploads/a.jpg", title := "t",
    description := "d", date := "2020-01-01", tags := [], externalLink := some "x" }

/-- A state holding samplePost and its backing file. -/
def sampleState : ServerState :=
  { posts := [samplePost], files := [joinDirname "/uploads/a.jpg"] }

/-- An update body supplying nothing. -/
def emptyUpdate : UpdateBody :=
  { title := none, description := none, date := none, tags := none, externalLink := none }

/-- An update body supplying a falsy title and a blank external link. -/
def sampleUpdate : UpdateBody :=
  { title := some "", description := none, date := none, tags := none,
    externalLink := some (some " ") }

/-- Two creates in the same millisecond. -/
def dupOps : List Op :=
  [Op.create (some okFile) okBody 5 "2020-01-01",
   Op.create (some okFile) okBody 5 "2020-01-01"]

/-- hasPre pat s holds exactly when pat is an initial segment of s. -/
theorem hasPre_iff (pat : List Char) : ∀ s, hasPre pat s = true ↔ ∃ v, s = pat ++ v := by
  induction pat with
  | nil =>
    intro s
    constructor
    · intro _; exact ⟨s, rfl⟩
    · intro _; rfl
  | cons a as ih =>
    intro s
    cases s with
    | nil =>
      constructor
      · intro h; exact absurd h (by simp [hasPre])
      · rintro ⟨v, hv⟩; exact absurd hv (by simp)
    | cons b bs =>
      constructor
      · intro h
        have h1 : a = b ∧ hasPre as bs = true := by
          simpa [hasPre, Bool.and_eq_true] using h
        obtain ⟨v, hv⟩ := (ih bs).mp h1.2
        exact ⟨v, by simp [h1.1, hv]⟩
      · rintro ⟨v, hv⟩
        have hb : b = a ∧ bs = as ++ v := by simpa using hv
        have h2 := (ih bs).mpr ⟨v, hb.2⟩
        simp [hasPre, hb.1, h2]

/-- hasSub pat s holds exactly when pat occurs inside s. -/
theorem hasSub_iff (pat : List Char) : ∀ s, hasSub pat s = true ↔ ∃ u v, s = u ++ pat ++ v := by
  intro s
  induction s with
  | nil =>
    constructor
    · intro h
      have hp : pat = [] := by simpa [hasSub, List.isEmpty_iff] using h
      exact ⟨[], [], by simp [hp]⟩
    · rintro ⟨u, v, huv⟩
      have h2 : u ++ pat ++ v = [] := huv.symm
      have h3 := List.append_eq_nil.mp h2
      have hp : pat = [] := (List.append_eq_nil.mp h3.1).2
      simp [hasSub, hp]
  | cons c rest ih =>
    constructor
    · intro h
      have h0 : hasPre pat (c :: rest) = true ∨ hasSub pat rest = true := by
        have := h
        simp only [hasSub, Bool.or_eq_true] at this
        exact this
      rcases h0 with hp | hs
      · obtain ⟨v, hv⟩ := (hasPre_iff pat _).mp hp
        exact ⟨[], v, by simpa using hv⟩
      · obtain ⟨u, v, huv⟩ := ih.mp hs
        exact ⟨c :: u, v, by simp [huv]⟩
    · rintro ⟨u, v, huv⟩
      cases u with
      | nil =>
        have hp : hasPre pat (c :: rest) = true :=
          (hasPre_iff pat _).mpr ⟨v, by simpa using huv⟩
        simp [hasSub, hp]
      | cons y u' =>
        have hx : c = y ∧ rest = u' ++ pat ++ v := by simpa using huv
        have hs := ih.mpr ⟨u', v, hx.2⟩
        simp [hasSub, hs]

/-- The unanchored allow-list regex matches s exactly when some alternative
occurs in s as a substring. -/
theorem regexTest_iff (s : String) :
    regexTest s = true ↔ ∃ t ∈ allowedTypes, ∃ u v, s.data = u ++ t.data ++ v := by
  simp [regexTest, List.any_eq_true, hasSub_iff]

/-- Shape of a successful updateFirst: the list splits at the first record
satisfying pred, and only that record is rewritten. -/
theorem updateFirst_eq_some (pred : Post → Bool) (f : Post → Post) :
    ∀ (l : List Post) (q : Post) (l' : List Post),
      updateFirst pred f l = some (q, l') →
      ∃ a x b, l = a ++ x :: b ∧ l' = a ++ f x :: b ∧ q = f x ∧ pred x = true ∧
        ∀ y ∈ a, pred y = false := by
  intro l
  induction l with
  | nil => intro q l' h; simp [updateFirst] at h
  | cons p rest ih =>
    intro q l' h
    by_cases hp : pred p
    · have h2 : q = f p ∧ l' = f p :: rest := by
        have := h
        simp [updateFirst, hp] at this
        exact ⟨this.1.symm, this.2.symm⟩
      exact ⟨[], p, rest, by simp, by simp [h2.2], h2.1, hp, by simp⟩
    · cases hres : updateFirst pred f rest with
      | none => simp [updateFirst, hp, hres] at h
      | some pr =>
        obtain ⟨q0, r⟩ := pr
        have h2 : q = q0 ∧ l' = p :: r := by
          have := h
          simp [updateFirst, hp, hres] at this
          exact ⟨this.1.symm, this.2.symm⟩
        obtain ⟨a, x, b, h3, h4, h5, h6, h7⟩ := ih q0 r hres
        refine ⟨p :: a, x, b, by simp [h3], by simp [h2.2, h4], h2.1 ▸ h5, h6, ?_⟩
        intro y hy
        rcases List.mem_cons.mp hy with hy | hy
        · simpa [hy] using hp
        · exact h7 y hy

/-- updateFirst on a split list whose first part has no match rewrites the
record at the split point. -/
theorem updateFirst_app (pred : Post → Bool) (f : Post → Post) :
    ∀ (a : List Post) (x : Post) (b : List Post),
      (∀ y ∈ a, pred y = false) → pred x = true →
      updateFirst pred f (a ++ x :: b) = some (f x, a ++ f x :: b) := by
  intro a
  induction a with
  | nil => intro x b _ hx; simp [updateFirst, hx]
  | cons p a' ih =>
    intro x b ha hx
    have hp : pred p = false := ha p (by simp)
    have ha' : ∀ y ∈ a', pred y = false := fun y hy => ha y (by simp [hy])
    simp [updateFirst, hp, ih x b ha' hx]

/-- updateFirst finds nothing when no record matches. -/
theorem updateFirst_none (pred : Post → Bool) (f : Post → Post) :
    ∀ l : List Post, (∀ y ∈ l, pred y = false) → updateFirst pred f l = none := by
  intro l
  induction l with
  | nil => intro _; rfl
  | cons p rest ih =>
    intro h
    have hp : pred p = false := h p (by simp)
    have h' : ∀ y ∈ rest, pred y = false := fun y hy => h y (by simp [hy])
    simp [updateFirst, hp, ih h']

/-- Shape of a successful removeFirst: the list splits at the first record
satisfying pred, and exactly that record is dropped. -/
theorem removeFirst_eq_some (pred : Post → Bool) :
    ∀ (l : List Post) (q : Post) (l' : List Post),
      removeFirst pred l = some (q, l') →
      ∃ a b, l = a ++ q :: b ∧ l' = a ++ b ∧ pred q = true ∧ ∀ y ∈ a, pred y = false := by
  intro l
  induction l with
  | nil => intro q l' h; simp [removeFirst] at h
  | cons p rest ih =>
    intro q l' h
    by_cases hp : pred p
    · have h2 : q = p ∧ l' = rest := by
        have := h
        simp [removeFirst, hp] at this
        exact ⟨this.1.symm, this.2.symm⟩
      exact ⟨[], rest, by simp [h2.1], by simp [h2.2], h2.1 ▸ hp, by simp⟩
    · cases hres : removeFirst pred rest with
      | none => simp [removeFirst, hp, hres] at h
      | some pr =>
        obtain ⟨q0, r⟩ := pr
        have h2 : q = q0 ∧ l' = p :: r := by
          have := h
          simp [removeFirst, hp, hres] at this
          exact ⟨this.1.symm, this.2.symm⟩
        obtain ⟨a, b, h3, h4, h5, h6⟩ := ih q0 r hres
        refine ⟨p :: a, b, by simp [h3, h2.1], by simp [h2.2, h4], h2.1 ▸ h5, ?_⟩
        intro y hy
        rcases List.mem_cons.mp hy with hy | hy
        · simpa [hy] using hp
        · exact h6 y hy

/-- removeFirst on a split list whose first part has no match removes the
record at the split point. -/
theorem removeFirst_app (pred : Post → Bool) :
    ∀ (a : List Post) (x : Post) (b : List Post),
      (∀ y ∈ a, pred y = false) → pred x = true →
      removeFirst pred (a ++ x :: b) = some (x, a ++ b) := by
  intro a
  induction a with
  | nil => intro x b _ hx; simp [removeFirst, hx]
  | cons p a' ih =>
    intro x b ha hx
    have hp : pred p = false := ha p (by simp)
    have ha' : ∀ y ∈ a', pred y = false := fun y hy => ha y (by simp [hy])
    simp [removeFirst, hp, ih x b ha' hx]

/-- removeFirst finds nothing when no record matches. -/
theorem removeFirst_none (pred : Post → Bool) :
    ∀ l : List Post, (∀ y ∈ l, pred y = false) → removeFirst pred l = none := by
  intro l
  induction l with
  | nil => intro _; rfl
  | cons p rest ih =>
    intro h
    have hp : pred p = false := h p (by simp)
    have h' : ∀ y ∈ rest, pred y = false := fun y hy => h y (by simp [hy])
    simp [removeFirst, hp, ih h']

/-- A create with a file part and truthy title and description answers 201 and
prepends the built record, whose id is the creation timestamp. -/
theorem createHandler_success (st : ServerState) (f : StoredFile) (b : CreateBody)
    (now : Int) (today : String)
    (ht : jsTruthyS b.title = true) (hd : jsTruthyS b.description = true) :
    ∃ p : Post, createHandler st (some f) b now today =
      (201, some p, { st with posts := p :: st.posts }) ∧ p.id = now := by
  refine ⟨builtPost f b now today, ?_, rfl⟩
  simp [createHandler, ht, hd]

/-- A create either leaves the document unchanged or prepends one record whose
id is the creation timestamp. -/
theorem createHandler_posts (st : ServerState) (f : Option StoredFile) (b : CreateBody)
    (now : Int) (today : String) :
    (createHandler st f b now today).2.2.posts = st.posts ∨
    ∃ p : Post, p.id = now ∧ (createHandler st f b now today).2.2.posts = p :: st.posts := by
  cases f with
  | none => exact Or.inl rfl
  | some f0 =>
    by_cases hc : (!(jsTruthyS b.title) || !(jsTruthyS b.description)) = true
    · left
      simp [createHandler, hc]
    · right
      refine ⟨builtPost f0 b now today, rfl, ?_⟩
      simp [createHandler, hc]

/-- An update never changes the sequence of ids of the document. -/
theorem updateHandler_map_id (st : ServerState) (idp : String) (b : UpdateBody) :
    (updateHandler st idp b).2.2.posts.map Post.id = st.posts.map Post.id := by
  cases hres : updateFirst (fun p => eqNum (jsParseInt idp) p.id) (applyUpdate b) st.posts with
  | none => simp [updateHandler, hres]
  | some pr =>
    obtain ⟨q, l'⟩ := pr
    obtain ⟨a, x, bb, h1, h2, _, _, _⟩ := updateFirst_eq_some _ _ _ _ _ hres
    have hid : (applyUpdate b x).id = x.id := rfl
    simp only [updateHandler, hres]
    rw [h1, h2]
    simp [hid]

/-- A delete leaves a document whose record list is a sublist of the old one. -/
theorem deleteHandler_posts_sublist (st : ServerState) (idp : String) (uf : String → Bool) :
    ((deleteHandler st idp uf).2.posts).Sublist st.posts := by
  cases hres : removeFirst (fun p => eqNum (jsParseInt idp) p.id) st.posts with
  | none => simp [deleteHandler, hres]
  | some pr =>
    obtain ⟨q, rest⟩ := pr
    obtain ⟨a, bb, h1, h2, _, _⟩ := removeFirst_eq_some _ _ _ _ hres
    have hsub : rest.Sublist st.posts := by
      rw [h1, h2]
      exact (List.sublist_cons_self q bb).append_left a
    simp only [deleteHandler, hres]
    by_cases hcont : joinDirname q.url ∈ st.files
    · by_cases huf : uf (joinDirname q.url) = true
      · simp [hcont, huf]
      · simp [hcont, huf, hsub]
    · simp [hcont, hsub]

/-- C1 counterexample: the upload "a.apng" declared as "image/apng" matches
neither the extension allow-list nor the mime allow-list of the claim, yet
fileFilter accepts it and the file is written, because the unanchored regex
tests substring containment ("apng" contains "png"). -/
theorem c1_counterexample :
    fileFilter "a.apng" "image/apng" = true ∧
    specAllowListCheck "a.apng" "image/apng" = false ∧
    processUpload [] "a.apng" "image/apng" "123-45.apng" = (some "123-45.apng", ["123-45.apng"]) :=
  ⟨rfl, rfl, rfl⟩

/-- C1 (amended): an upload is accepted exactly when the declared mimetype
(case-sensitively) and the lower-cased extension of the declared filename each
contain some allow-list entry as a substring; when either test fails the
request is rejected and no file is written, and when both pass the file is
written. -/
theorem c1_filter_characterization (name mime : String) (dir : List String) (stored : String) :
    (fileFilter name mime = true ↔
      ((∃ t ∈ allowedTypes, ∃ u v, mime.data = u ++ t.data ++ v) ∧
       (∃ t ∈ allowedTypes, ∃ u v, (lowerStr (extname name)).data = u ++ t.data ++ v))) ∧
    (fileFilter name mime = false → processUpload dir name mime stored = (none, dir)) ∧
    (fileFilter name mime = true → processUpload dir name mime stored = (some stored, stored :: dir)) := by
  refine ⟨?_, ?_, ?_⟩
  · simp [fileFilter, Bool.and_eq_true, regexTest_iff]
  · intro h
    simp [processUpload, h]
  · intro h
    simp [processUpload, h]

/-- Witness for c1_filter_characterization: a .txt text file is rejected and
nothing is written. -/
theorem c1_filter_characterization_witness :
    processUpload [] "a.txt" "text/plain" "s.txt" = (none, []) :=
  (c1_filter_characterization "a.txt" "text/plain" [] "s.txt").2.1 rfl

/-- C2: a POST whose file was stored but whose title or description is falsy
answers 400, adds no record, and erases the stored file from the uploads
directory, so no orphaned file remains when the directory had no duplicates. -/
theorem c2_invalid_metadata_cleanup (st : ServerState) (f : StoredFile) (body : CreateBody)
    (now : Int) (today : String)
    (h : jsTruthyS body.title = false ∨ jsTruthyS body.description = false) :
    createHandler st (some f) body now today =
      (400, none, { st with files := st.files.erase f.path }) ∧
    (createHandler st (some f) body now today).2.2.posts = st.posts ∧
    (st.files.Nodup → f.path ∉ (createHandler st (some f) body now today).2.2.files) := by
  have hc : (!(jsTruthyS body.title) || !(jsTruthyS body.description)) = true := by
    rcases h with h | h <;> simp [h]
  have he : createHandler st (some f) body now today =
      (400, none, { st with files := st.files.erase f.path }) := by
    simp [createHandler, hc]
  refine ⟨he, by rw [he], ?_⟩
  intro hnd
  rw [he]
  exact hnd.not_mem_erase

/-- Witness for c2_invalid_metadata_cleanup: a create with an empty title on
the empty state answers 400 with no record and no file. -/
theorem c2_invalid_metadata_cleanup_witness :
    createHandler emptyState (some okFile) noTitleBody 5 "2020-01-01" =
      (400, none, { emptyState with files := emptyState.files.erase okFile.path }) :=
  (c2_invalid_metadata_cleanup emptyState okFile noTitleBody 5 "2020-01-01" (Or.inl rfl)).1

/-- C3 counterexample: with the backing file present but unlinkSync throwing,
DELETE on an existing id answers 500 and the record is not removed, so a
failure to remove the file does abort record removal. -/
theorem c3_counterexample :
    deleteHandler sampleState "1" (fun _ => true) = (500, sampleState) ∧
    sampleState.posts = [samplePost] :=
  ⟨rfl, rfl⟩

/-- C3 (amended): DELETE on an existing id removes the record and persists
when the backing file is missing (not an error) or when the unlink succeeds;
but when the unlink itself fails the handler answers 500 and the record is
not removed. -/
theorem c3_delete_file_behavior (st : ServerState) (idParam : String) (uf : String → Bool)
    (a b : List Post) (x : Post)
    (hsplit : st.posts = a ++ x :: b)
    (ha : ∀ y ∈ a, eqNum (jsParseInt idParam) y.id = false)
    (hx : eqNum (jsParseInt idParam) x.id = true) :
    (joinDirname x.url ∉ st.files →
      deleteHandler st idParam uf = (200, { st with posts := a ++ b })) ∧
    (joinDirname x.url ∈ st.files → uf (joinDirname x.url) = false →
      deleteHandler st idParam uf =
        (200, { posts := a ++ b, files := st.files.erase (joinDirname x.url) })) ∧
    (joinDirname x.url ∈ st.files → uf (joinDirname x.url) = true →
      deleteHandler st idParam uf = (500, st)) := by
  have hrm : removeFirst (fun p => eqNum (jsParseInt idParam) p.id) st.posts = some (x, a ++ b) := by
    rw [hsplit]
    exact removeFirst_app _ a x b ha hx
  refine ⟨?_, ?_, ?_⟩
  · intro h1
    simp [deleteHandler, hrm, h1]
  · intro h1 h2
    simp [deleteHandler, hrm, h1, h2]
  · intro h1 h2
    simp [deleteHandler, hrm, h1, h2]

/-- Witness for c3_delete_file_behavior: deleting the sample post when its
backing file is already missing still succeeds and removes the record. -/
theorem c3_delete_file_behavior_witness :
    deleteHandler { posts := [samplePost], files := [] } "1" (fun _ => false) =
      (200, { posts := ([] : List Post) ++ [], files := [] }) :=
  (c3_delete_file_behavior { posts := [samplePost], files := [] } "1" (fun _ => false)
    [] [] samplePost rfl (by simp) rfl).1 (by simp)

/-- C4 counterexample: two creates carrying the same millisecond timestamp
produce two records with the same id, so id uniqueness does not hold for every
sequence of operations. -/
theorem c4_counterexample :
    (runOps emptyState dupOps).posts.map Post.id = [5, 5] ∧
    ¬ ((runOps emptyState dupOps).posts.map Post.id).Nodup := by
  refine ⟨rfl, ?_⟩
  intro h
  rw [show (runOps emptyState dupOps).posts.map Post.id = [5, 5] from rfl] at h
  simp at h

/-- Ids stay pairwise distinct under any operation sequence whenever the ids
already present are below every upcoming creation timestamp and the creation
timestamps are strictly increasing. -/
theorem runOps_ids_nodup : ∀ (ops : List Op) (st : ServerState),
    (st.posts.map Post.id).Nodup →
    (∀ i ∈ st.posts.map Post.id, ∀ t ∈ createTimes ops, i < t) →
    (createTimes ops).Pairwise (· < ·) →
    ((runOps st ops).posts.map Post.id).Nodup := by
  intro ops
  induction ops with
  | nil =>
    intro st hnd _ _
    simpa [runOps] using hnd
  | cons op ops ih =>
    intro st hnd hbd hmono
    cases op with
    | create f b now today =>
      have hct : createTimes (Op.create f b now today :: ops) = now :: createTimes ops := rfl
      rw [hct] at hbd hmono
      have hmp := List.pairwise_cons.mp hmono
      show ((runOps (applyOp st (Op.create f b now today)) ops).posts.map Post.id).Nodup
      have hstep : applyOp st (Op.create f b now today) = (createHandler st f b now today).2.2 := rfl
      rcases createHandler_posts st f b now today with hsame | ⟨p, hp, hcons⟩
      · apply ih
        · rw [hstep, hsame]
          exact hnd
        · rw [hstep, hsame]
          intro i hi t ht
          exact hbd i hi t (List.mem_cons_of_mem _ ht)
        · exact hmp.2
      · apply ih
        · rw [hstep, hcons, List.map_cons, List.nodup_cons]
          refine ⟨?_, hnd⟩
          intro hmem
          have hlt := hbd p.id hmem now (by simp)
          rw [hp] at hlt
          exact lt_irrefl now hlt
        · rw [hstep, hcons]
          intro i hi t ht
          rw [List.map_cons] at hi
          rcases List.mem_cons.mp hi with hi | hi
          · rw [hi, hp]
            exact hmp.1 t ht
          · exact hbd i hi t (List.mem_cons_of_mem _ ht)
        · exact hmp.2
    | update idp b =>
      have hct : createTimes (Op.update idp b :: ops) = createTimes ops := rfl
      rw [hct] at hbd hmono
      show ((runOps (applyOp st (Op.update idp b)) ops).posts.map Post.id).Nodup
      apply ih
      · rw [show (applyOp st (Op.update idp b)).posts.map Post.id = st.posts.map Post.id from
          updateHandler_map_id st idp b]
        exact hnd
      · rw [show (applyOp st (Op.update idp b)).posts.map Post.id = st.posts.map Post.id from
          updateHandler_map_id st idp b]
        exact hbd
      · exact hmono
    | del idp uf =>
      have hct : createTimes (Op.del idp uf :: ops) = createTimes ops := rfl
      rw [hct] at hbd hmono
      show ((runOps (applyOp st (Op.del idp uf)) ops).posts.map Post.id).Nodup
      have hsub : ((applyOp st (Op.del idp uf)).posts.map Post.id).Sublist (st.posts.map Post.id) :=
        (deleteHandler_posts_sublist st idp uf).map Post.id
      apply ih
      · exact hnd.sublist hsub
      · intro i hi t ht
        exact hbd i (hsub.subset hi) t ht
      · exact hmono

/-- C4 (amended): starting from the empty collection, after any sequence of
create, update and delete operations whose creation timestamps are strictly
increasing, every post id is unique across the collection. -/
theorem c4_unique_ids (ops : List Op)
    (hmono : (createTimes ops).Pairwise (· < ·)) :
    ((runOps emptyState ops).posts.map Post.id).Nodup :=
  runOps_ids_nodup ops emptyState (by simp [emptyState]) (by simp [emptyState]) hmono

/-- Witness for c4_unique_ids: two creates at increasing timestamps give
distinct ids. -/
theorem c4_unique_ids_witness :
    ((runOps emptyState
      [Op.create (some okFile) okBody 5 "2020-01-01",
       Op.create (some okFile) okBody 7 "2020-01-01"]).posts.map Post.id).Nodup :=
  c4_unique_ids _ (by decide)

/-- C5: on a PUT targeting the first matching post x, the handler stores
applyUpdate body x in place; a supplied empty title, description, date or
tags value leaves the stored field unchanged and is indistinguishable from
not supplying the field, while a supplied externalLink always replaces the
stored value, blank normalizing to null, and does distinguish supplied-empty
from not-supplied. -/
theorem c5_partial_update (st : ServerState) (idParam : String) (body : UpdateBody)
    (a b : List Post) (x : Post)
    (hsplit : st.posts = a ++ x :: b)
    (ha : ∀ y ∈ a, eqNum (jsParseInt idParam) y.id = false)
    (hx : eqNum (jsParseInt idParam) x.id = true) :
    updateHandler st idParam body =
      (200, some (applyUpdate body x), { st with posts := a ++ applyUpdate body x :: b }) ∧
    (body.title = some "" → (applyUpdate body x).title = x.title) ∧
    (body.description = some "" → (applyUpdate body x).description = x.description) ∧
    (body.date = some "" → (applyUpdate body x).date = x.date) ∧
    (body.tags = some none → (applyUpdate body x).tags = x.tags) ∧
    (∀ v, body.externalLink = some v → (applyUpdate body x).externalLink = normalizeLink v) ∧
    (∀ s, trimStr s = "" → normalizeLink (some s) = none) ∧
    (applyUpdate { body with title := none } x = applyUpdate { body with title := some "" } x) ∧
    (applyUpdate { body with description := none } x =
      applyUpdate { body with description := some "" } x) ∧
    (applyUpdate { body with date := none } x = applyUpdate { body with date := some "" } x) ∧
    (applyUpdate { body with tags := none } x = applyUpdate { body with tags := some none } x) ∧
    (x.externalLink ≠ none →
      applyUpdate { body with externalLink := none } x ≠
        applyUpdate { body with externalLink := some (some "") } x) := by
  have hupd : updateFirst (fun p => eqNum (jsParseInt idParam) p.id) (applyUpdate body) st.posts
      = some (applyUpdate body x, a ++ applyUpdate body x :: b) := by
    rw [hsplit]
    exact updateFirst_app _ _ a x b ha hx
  refine ⟨by simp [updateHandler, hupd], ?_, ?_, ?_, ?_, ?_, ?_, rfl, rfl, rfl, rfl, ?_⟩
  · intro h
    simp [applyUpdate, h]
  · intro h
    simp [applyUpdate, h]
  · intro h
    simp [applyUpdate, h]
  · intro h
    simp [applyUpdate, h]
  · intro v h
    simp [applyUpdate, h]
  · intro s h
    simp [normalizeLink, h]
  · intro hne heq
    apply hne
    have h2 : normalizeLink (some "") = none := rfl
    have h1 := congrArg Post.externalLink heq
    simpa [applyUpdate, h2] using h1

/-- Witness for c5_partial_update: updating the sample post with a falsy title
and a blank externalLink keeps the title and clears the link. -/
theorem c5_partial_update_witness :
    updateHandler { posts := [samplePost], files := [] } "1" sampleUpdate =
      (200, some (applyUpdate sampleUpdate samplePost),
        { posts := [applyUpdate sampleUpdate samplePost], files := [] }) :=
  (c5_partial_update { posts := [samplePost], files := [] } "1" sampleUpdate
    [] [] samplePost rfl (by simp) rfl).1

/-- C6: two successful creates prepend in order, so GET /api/posts afterwards
lists the records newest first: [B, A] before the older contents. -/
theorem c6_newest_first (st : ServerState) (fA fB : StoredFile) (bA bB : CreateBody)
    (nA nB : Int) (dA dB : String)
    (hA : jsTruthyS bA.title = true) (hA2 : jsTruthyS bA.description = true)
    (hB : jsTruthyS bB.title = true) (hB2 : jsTruthyS bB.description = true) :
    ∃ pA pB : Post,
      (createHandler st (some fA) bA nA dA).2.1 = some pA ∧
      (createHandler (createHandler st (some fA) bA nA dA).2.2 (some fB) bB nB dB).2.1 = some pB ∧
      (listHandler (createHandler (createHandler st (some fA) bA nA dA).2.2
        (some fB) bB nB dB).2.2).2.1 = pB :: pA :: st.posts := by
  obtain ⟨pA, h1, _⟩ := createHandler_success st fA bA nA dA hA hA2
  obtain ⟨pB, h2, _⟩ := createHandler_success { st with posts := pA :: st.posts } fB bB nB dB hB hB2
  have h1' : (createHandler st (some fA) bA nA dA).2.2 = { st with posts := pA :: st.posts } := by
    rw [h1]
  refine ⟨pA, pB, ?_, ?_, ?_⟩
  · rw [h1]
  · rw [h1', h2]
  · rw [h1', h2]
    simp [listHandler]

/-- Witness for c6_newest_first at two concrete creates on the empty state. -/
theorem c6_newest_first_witness :
    ∃ pA pB : Post,
      (createHandler emptyState (some okFile) okBody 5 "2020-01-01").2.1 = some pA ∧
      (createHandler (createHandler emptyState (some okFile) okBody 5 "2020-01-01").2.2
        (some okFile) okBody 7 "2020-01-02").2.1 = some pB ∧
      (listHandler (createHandler (createHandler emptyState (some okFile) okBody 5 "2020-01-01").2.2
        (some okFile) okBody 7 "2020-01-02").2.2).2.1 = pB :: pA :: emptyState.posts :=
  c6_newest_first emptyState okFile okFile okBody okBody 5 7 "2020-01-01" "2020-01-02"
    rfl rfl rfl rfl

/-- C7: a successful create answers 201 with the built record, and a GET with
an id parameter parsing to the creation timestamp returns that very record,
field for field. -/
theorem c7_roundtrip (st : ServerState) (f : StoredFile) (body : CreateBody)
    (now : Int) (today : String) (idParam : String)
    (ht : jsTruthyS body.title = true) (hd : jsTruthyS body.description = true)
    (hparse : jsParseInt idParam = some now) :
    ∃ p : Post,
      createHandler st (some f) body now today =
        (201, some p, { st with posts := p :: st.posts }) ∧
      getPostHandler (createHandler st (some f) body now today).2.2 idParam =
        (200, some p, (createHandler st (some f) body now today).2.2) := by
  obtain ⟨p, heq, hid⟩ := createHandler_success st f body now today ht hd
  have hpred : eqNum (jsParseInt idParam) p.id = true := by
    rw [hparse, hid]
    simp [eqNum]
  refine ⟨p, heq, ?_⟩
  have h22 : (createHandler st (some f) body now today).2.2 = { st with posts := p :: st.posts } := by
    rw [heq]
  rw [h22]
  have hf : List.find? (fun q => eqNum (jsParseInt idParam) q.id) (p :: st.posts) = some p :=
    List.find?_cons_of_pos _ hpred
  simp [getPostHandler, hf]

/-- Witness for c7_roundtrip at a concrete create fetched back with id "5". -/
theorem c7_roundtrip_witness :
    ∃ p : Post,
      createHandler emptyState (some okFile) okBody 5 "2020-01-01" =
        (201, some p, { emptyState with posts := p :: emptyState.posts }) ∧
      getPostHandler (createHandler emptyState (some okFile) okBody 5 "2020-01-01").2.2 "5" =
        (200, some p, (createHandler emptyState (some okFile) okBody 5 "2020-01-01").2.2) :=
  c7_roundtrip emptyState okFile okBody 5 "2020-01-01" "5" rfl rfl rfl

/-- C8: a PUT either leaves the document unchanged or rewrites exactly the
first matching post, and the rewrite never changes id, type or url; every
other post is untouched. -/
theorem c8_update_frame (st : ServerState) (idParam : String) (body : UpdateBody) :
    (updateHandler st idParam body).2.2.posts = st.posts ∨
    ∃ a x b, st.posts = a ++ x :: b ∧
      (updateHandler st idParam body).2.2.posts = a ++ applyUpdate body x :: b ∧
      (applyUpdate body x).id = x.id ∧
      (applyUpdate body x).type = x.type ∧
      (applyUpdate body x).url = x.url := by
  cases hres : updateFirst (fun p => eqNum (jsParseInt idParam) p.id) (applyUpdate body) st.posts with
  | none =>
    left
    simp [updateHandler, hres]
  | some pr =>
    obtain ⟨q, l'⟩ := pr
    obtain ⟨a, x, b, h1, h2, _, _, _⟩ := updateFirst_eq_some _ _ _ _ _ hres
    right
    exact ⟨a, x, b, h1, by simp [updateHandler, hres, h2], rfl, rfl, rfl⟩

/-- C9: when the id path parameter does not parse to a number, the lookup of
GET, PUT and DELETE matches no post in any collection and each route answers
404 with the state unchanged. -/
theorem c9_nonnumeric_not_found (st : ServerState) (idParam : String) (body : UpdateBody)
    (uf : String → Bool) (h : jsParseInt idParam = none) :
    getPostHandler st idParam = (404, none, st) ∧
    updateHandler st idParam body = (404, none, st) ∧
    deleteHandler st idParam uf = (404, st) := by
  have hpred : ∀ p : Post, eqNum (jsParseInt idParam) p.id = false := by
    intro p
    rw [h]
    rfl
  refine ⟨?_, ?_, ?_⟩
  · have hf : st.posts.find? (fun p => eqNum (jsParseInt idParam) p.id) = none :=
      List.find?_eq_none.mpr (fun y _ => by simp [hpred y])
    simp [getPostHandler, hf]
  · have hu := updateFirst_none _ (applyUpdate body) st.posts (fun y _ => hpred y)
    simp [updateHandler, hu]
  · have hr := removeFirst_none _ st.posts (fun y _ => hpred y)
    simp [deleteHandler, hr]

/-- Witness for c9_nonnumeric_not_found on the sample state with id "abc". -/
theorem c9_nonnumeric_not_found_witness :
    getPostHandler sampleState "abc" = (404, none, sampleState) ∧
    updateHandler sampleState "abc" emptyUpdate = (404, none, sampleState) ∧
    deleteHandler sampleState "abc" (fun _ => false) = (404, sampleState) :=
  c9_nonnumeric_not_found sampleState "abc" emptyUpdate (fun _ => false) rfl

/-- C10: on a 404 from GET, PUT or DELETE by id, and on a 400 from POST, the
posts document after the request equals the document before it. -/
theorem c10_no_write_on_error (st : ServerState) (idParam : String) (ubody : UpdateBody)
    (uf : String → Bool) (file : Option StoredFile) (cbody : CreateBody)
    (now : Int) (today : String) :
    ((getPostHandler st idParam).1 = 404 → (getPostHandler st idParam).2.2.posts = st.posts) ∧
    ((updateHandler st idParam ubody).1 = 404 →
      (updateHandler st idParam ubody).2.2.posts = st.posts) ∧
    ((deleteHandler st idParam uf).1 = 404 → (deleteHandler st idParam uf).2.posts = st.posts) ∧
    ((createHandler st file cbody now today).1 = 400 →
      (createHandler st file cbody now today).2.2.posts = st.posts) := by
  refine ⟨?_, ?_, ?_, ?_⟩
  · intro _
    cases hf : st.posts.find? (fun p => eqNum (jsParseInt idParam) p.id) <;>
      simp [getPostHandler, hf]
  · intro h404
    cases hres : updateFirst (fun p => eqNum (jsParseInt idParam) p.id)
        (applyUpdate ubody) st.posts with
    | none => simp [updateHandler, hres]
    | some pr =>
      obtain ⟨q, l'⟩ := pr
      simp [updateHandler, hres] at h404
  · intro h404
    cases hres : removeFirst (fun p => eqNum (jsParseInt idParam) p.id) st.posts with
    | none => simp [deleteHandler, hres]
    | some pr =>
      obtain ⟨q, rest⟩ := pr
      simp only [deleteHandler, hres] at h404
      by_cases hcont : joinDirname q.url ∈ st.files
      · by_cases huf : uf (joinDirname q.url) = true
        · simp [deleteHandler, hres, hcont, huf]
        · simp [hcont, huf] at h404
      · simp [hcont] at h404
  · intro h400
    cases file with
    | none => rfl
    | some f =>
      by_cases hc : (!(jsTruthyS cbody.title) || !(jsTruthyS cbody.description)) = true
      · simp [createHandler, hc]
      · simp [createHandler, hc] at h400

/-- Witness for c10_no_write_on_error: 404 lookups with id "99" and a 400
create without a file leave the sample document unchanged. -/
theorem c10_no_write_on_error_witness :
    (getPostHandler sampleState "99").2.2.posts = sampleState.posts ∧
    (updateHandler sampleState "99" emptyUpdate).2.2.posts = sampleState.posts ∧
    (deleteHandler sampleState "99" (fun _ => false)).2.posts = sampleState.posts ∧
    (createHandler sampleState none okBody 5 "2020-01-01").2.2.posts = sampleState.posts :=
  have h := c10_no_write_on_error sampleState "99" emptyUpdate (fun _ => false)
    none okBody 5 "2020-01-01"
  ⟨h.1 rfl, h.2.1 rfl, h.2.2.1 rfl, h.2.2.2 rfl⟩
